import Mathlib

set_option autoImplicit false

namespace Msl

/- Shallow embedding of the MSL core excerpt: message capabilities
(`msg/MessageCapabilities.js`), the key exchange scheme registry
(`keyx/KeyExchangeScheme.js`), the ECC crypto context and the JSON MSL
array accessor.  Byte sequences are `List Nat`; JavaScript null/undefined
inputs are `Option`; a thrown exception is the `error` side of `Except`. -/

/-- Property names that every plain JavaScript object literal inherits from
`Object.prototype`.  Reading one of them on an otherwise empty object yields a
function (or, for `__proto__`, an object), and all of those values are truthy.
This matters wherever the source uses an object literal as a string-keyed map
and tests membership by truthiness. -/
def objectPrototypeProps : List String :=
  ["constructor", "hasOwnProperty", "isPrototypeOf", "propertyIsEnumerable",
   "toLocaleString", "toString", "valueOf", "__defineGetter__",
   "__defineSetter__", "__lookupGetter__", "__lookupSetter__", "__proto__"]

/-- The three feature lists of a `MessageCapabilities` object
(`msg/MessageCapabilities.js`).  Compression algorithms, languages and encoder
formats are all carried as strings on the wire. -/
structure MessageCapabilities where
  compressionAlgorithms : List String
  languages : List String
  encoderFormats : List String
  deriving Repr, DecidableEq

/-- `computeIntersection(a, b)` from `MessageCapabilities.js` lines 63-75: set
a truthy own property `hash[x] = true` for every element `x` of `a`, then keep
every element of `b` on which `hash[b[i]]` is truthy, in `b` order.  Because
`hash` is a plain object literal, the truthiness test also sees the inherited
`Object.prototype` properties. -/
def computeIntersection (a b : List String) : List String :=
  b.filter (fun x => a.contains x || objectPrototypeProps.contains x)

/-- A JavaScript ReferenceError, raised when an undefined identifier is
evaluated. -/
inductive JsError where
  | referenceError (ident : String)
  deriving Repr, DecidableEq

/-- `MessageCapabilities$intersection(mc1, mc2)` from `MessageCapabilities.js`
lines 85-100.  A null argument on either side short-circuits to null.
Otherwise the compression-algorithm and language intersections are computed
with `computeIntersection`, and then the code evaluates the identifier
`computerIntersection` for the encoder formats; that identifier is defined
nowhere in the source, so execution raises a ReferenceError before any
`MessageCapabilities` result is constructed. -/
def MessageCapabilities.intersection :
    Option MessageCapabilities → Option MessageCapabilities →
      Except JsError (Option MessageCapabilities)
  | none, _ => .ok none
  | some _, none => .ok none
  | some mc1, some mc2 =>
    let _compressionAlgos :=
      computeIntersection mc1.compressionAlgorithms mc2.compressionAlgorithms
    let _languages := computeIntersection mc1.languages mc2.languages
    .error (.referenceError "computerIntersection")

/-- The `MessageCapabilities` constructor (`init`, lines 112-131): a null list
argument is replaced by the empty list, and the compression-algorithm list is
sorted in place (JavaScript default lexicographic string order, embedded as
insertion sort by string order). -/
def MessageCapabilities.init
    (compressionAlgos languages encoderFormats : Option (List String)) :
    MessageCapabilities :=
  { compressionAlgorithms := List.insertionSort (· ≤ ·) (compressionAlgos.getD [])
    languages := languages.getD []
    encoderFormats := encoderFormats.getD [] }

/-- One JavaScript property descriptor as passed to
`Object.defineProperties`. -/
structure PropertyDescriptor where
  writable : Bool
  enumerable : Bool
  configurable : Bool
  deriving Repr, DecidableEq

/-- The property descriptors the `MessageCapabilities` constructor installs
for its three fields (lines 122-129): each is `writable: false,
enumerable: true, configurable: false`. -/
def MessageCapabilities.propertyDescriptors : List (String × PropertyDescriptor) :=
  [("compressionAlgorithms", ⟨false, true, false⟩),
   ("languages", ⟨false, true, false⟩),
   ("encoderFormats", ⟨false, true, false⟩)]

/-- Modelled from the spec: the `MslConstants$CompressionAlgorithm`
enumeration is not under src/.  The spec and the source doc comment give the
compression-algorithm enumeration as GZIP and LZW, so a value is recognized
exactly when it is one of these names. -/
def compressionAlgorithmNames : List String := ["GZIP", "LZW"]

/-- Modelled from the spec: the encoded capabilities object consumed by
`MessageCapabilities$parse`.  The `MslObject` base class and its
`optMslArray` accessor are not under src/; per the spec an MSL array is an
ordered 0-indexed sequence and `optMslArray` yields the array at a key or
null, so each of the three keys maps to an optional list of strings. -/
structure CapabilitiesMo where
  compressionalgos : Option (List String)
  languages : Option (List String)
  encoderformats : Option (List String)
  deriving Repr, DecidableEq

/-- `MessageCapabilities$parse(capabilitiesMo)` (lines 170-205): each of the
three arrays is read if present (a null array yields the empty list and the
loop is skipped); compression algorithms outside
`compressionAlgorithmNames` are silently skipped, and encoder formats on
which the format-name lookup fails are silently skipped (the
`MslEncoderFormat.getFormat` registry is not under src/, so it is modelled
from the spec by the `recognizedFormats` parameter).  The result is built
with the `MessageCapabilities` constructor. -/
def MessageCapabilities.parseMo (recognizedFormats : List String)
    (mo : CapabilitiesMo) : MessageCapabilities :=
  let compressionAlgos := (mo.compressionalgos.getD []).filter
    (fun algo => compressionAlgorithmNames.contains algo)
  let languages := mo.languages.getD []
  let encoderFormats := (mo.encoderformats.getD []).filter
    (fun format => recognizedFormats.contains format)
  MessageCapabilities.init (some compressionAlgos) (some languages)
    (some encoderFormats)

/-- A key exchange scheme (`keyx/KeyExchangeScheme.js`): the constructor
installs a non-writable `name` property. -/
structure KeyExchangeScheme where
  name : String
  deriving Repr, DecidableEq

/-- The five schemes created by the constructor calls on lines 49-62 of
`KeyExchangeScheme.js`, in source order.  Each constructor call executes
`schemes[name] = this`, registering the scheme in the module-level map. -/
def registeredSchemes : List KeyExchangeScheme :=
  [⟨"ASYMMETRIC_WRAPPED"⟩, ⟨"DIFFIE_HELLMAN"⟩, ⟨"JWE_LADDER"⟩,
   ⟨"JWK_LADDER"⟩, ⟨"SYMMETRIC_WRAPPED"⟩]

/-- The `schemes` map after module initialization: each registered scheme
keyed by its name, in registration order. -/
def schemes : List (String × KeyExchangeScheme) :=
  registeredSchemes.map (fun s => (s.name, s))

/-- What `KeyExchangeScheme$getScheme` can return: a registered scheme, a
truthy value inherited from `Object.prototype` (the `schemes` map is a plain
object literal, so the truthiness test `schemes[name]` also sees inherited
properties and returns them), or JavaScript null. -/
inductive SchemeLookupResult where
  | scheme (s : KeyExchangeScheme)
  | inheritedProperty (prop : String)
  | jsNull
  deriving Repr, DecidableEq

/-- `KeyExchangeScheme$getScheme(name)` (lines 70-72):
`return (schemes[name]) ? schemes[name] : null;`.  An own property (a
registered scheme object) is truthy and returned; otherwise the property read
falls through to `Object.prototype`, whose members are also truthy and are
returned as-is; only when the read yields undefined is null returned.  The
lookup never throws. -/
def KeyExchangeScheme.getScheme (name : String) : SchemeLookupResult :=
  match schemes.lookup name with
  | some s => .scheme s
  | none =>
    if objectPrototypeProps.contains name then .inheritedProperty name
    else .jsNull

/-- MSL error codes referenced by `EccCryptoContext` (part_000). -/
inductive MslError where
  | WRAP_NOT_SUPPORTED
  | UNWRAP_NOT_SUPPORTED
  | VERIFY_NOT_SUPPORTED
  | SIGNATURE_ERROR
  deriving Repr, DecidableEq

/-- A `MslCryptoException`: an MSL error code plus a detail message. -/
structure MslCryptoException where
  error : MslError
  msg : String
  deriving Repr, DecidableEq

/-- Modelled from the spec: `AsyncExecutor` (the continuation-dispatch helper
the crypto contexts run their bodies under) is not under src/.  Per the spec,
every operation completes through exactly one of the two continuations: the
success continuation receives the returned result (`ok`), the error
continuation receives the thrown MSL exception (`error`). -/
abbrev CallbackOutcome (α : Type) : Type := Except MslCryptoException α

/-- An ECC crypto context (part_000) holds only its private key; the key is
not consulted by the operations embedded here. -/
structure EccCryptoContext where
  privateKey : Nat
  deriving Repr, DecidableEq

/-- `EccCryptoContext.encrypt` (part_000 lines 47-51): the body returns
`data` unchanged, so the success continuation receives the input as-is. -/
def EccCryptoContext.encrypt (_ctx : EccCryptoContext) (data : List Nat) :
    CallbackOutcome (List Nat) :=
  .ok data

/-- `EccCryptoContext.decrypt` (part_000 lines 53-58): the body returns
`data` unchanged, so the success continuation receives the input as-is. -/
def EccCryptoContext.decrypt (_ctx : EccCryptoContext) (data : List Nat) :
    CallbackOutcome (List Nat) :=
  .ok data

/-- `EccCryptoContext.wrap` (part_000 lines 61-65): the body throws
`MslCryptoException(MslError.WRAP_NOT_SUPPORTED, "ECC does not wrap")`, which
the executor delivers to the error continuation. -/
def EccCryptoContext.wrap (_ctx : EccCryptoContext) (_key : List Nat) :
    CallbackOutcome (List Nat) :=
  .error ⟨.WRAP_NOT_SUPPORTED, "ECC does not wrap"⟩

/-- `EccCryptoContext.unwrap` (part_000 lines 67-72): the body throws
`MslCryptoException(MslError.UNWRAP_NOT_SUPPORTED, "ECC does not unwrap")`. -/
def EccCryptoContext.unwrap (_ctx : EccCryptoContext) (_data : List Nat) :
    CallbackOutcome (List Nat) :=
  .error ⟨.UNWRAP_NOT_SUPPORTED, "ECC does not unwrap"⟩

/-- `EccCryptoContext.verify` (part_000 lines 99-104): the body throws
`MslCryptoException(MslError.VERIFY_NOT_SUPPORTED, "ECC does not verify")`. -/
def EccCryptoContext.verify (_ctx : EccCryptoContext)
    (_data _signature : List Nat) : CallbackOutcome Bool :=
  .error ⟨.VERIFY_NOT_SUPPORTED, "ECC does not verify"⟩

/-- A value stored at an index of a decoded `JsonMslArray` (part_001):
native binary data (`Uint8Array`), a primitive string, a `String` wrapper
object, or one of the remaining value shapes, which `getBytes` rejects. -/
inductive MslValue where
  | bytes (b : List Nat)
  | str (s : String)
  | strObject (s : String)
  | num (n : Int)
  | boolean (b : Bool)
  | jsNull
  | object
  | array
  deriving Repr, DecidableEq

/-- Modelled from the spec: `base64$decode` is not under src/; this is
standard Base64, mapping an alphabet character to its 6-bit value. -/
def base64Value (c : Char) : Option Nat :=
  if 'A' ≤ c ∧ c ≤ 'Z' then some (c.toNat - 'A'.toNat)
  else if 'a' ≤ c ∧ c ≤ 'z' then some (c.toNat - 'a'.toNat + 26)
  else if '0' ≤ c ∧ c ≤ '9' then some (c.toNat - '0'.toNat + 52)
  else if c = '+' then some 62
  else if c = '/' then some 63
  else none

/-- Modelled from the spec: standard Base64 decoding of a character list,
four characters (three bytes) at a time; `=` padding is allowed only in the
final group, and any character outside the alphabet fails the decode. -/
def base64DecodeChars : List Char → Option (List Nat)
  | [] => some []
  | c1 :: c2 :: c3 :: c4 :: rest => do
    let v1 ← base64Value c1
    let v2 ← base64Value c2
    if c3 = '=' then
      if c4 = '=' ∧ rest = [] then some [v1 * 4 + v2 / 16] else none
    else do
      let v3 ← base64Value c3
      if c4 = '=' then
        if rest = [] then some [v1 * 4 + v2 / 16, (v2 % 16) * 16 + v3 / 4]
        else none
      else do
        let v4 ← base64Value c4
        let tail ← base64DecodeChars rest
        some ((v1 * 4 + v2 / 16) :: ((v2 % 16) * 16 + v3 / 4) ::
          ((v3 % 4) * 64 + v4) :: tail)
  | _ => none

/-- Modelled from the spec: Base64-decode a string by decoding its character
sequence. -/
def base64Decode (s : String) : Option (List Nat) :=
  base64DecodeChars s.data

/-- A `MslEncoderException`: the encoding-error condition thrown by the MSL
encoder layer. -/
structure MslEncoderException where
  msg : String
  deriving Repr, DecidableEq

/-- Modelled from the spec: `MslArray.get(index)` (the base class is not
under src/) reads the element of the ordered 0-indexed sequence, yielding
nothing when the index is out of range. -/
def JsonMslArray.get (list : List MslValue) (index : Nat) : Option MslValue :=
  list.get? index

/-- `JsonMslArray.getBytes(index)` (part_001 lines 97-110): a `Uint8Array`
value is returned as-is; a `String` wrapper object or a primitive string is
Base64-decoded; every other value raises
`MslEncoderException("MslArray ... is not binary data.")`.  The base accessor
and the Base64 decoder are modelled from the spec; an out-of-range index or a
string that is not valid Base64 also raises. -/
def JsonMslArray.getBytes (list : List MslValue) (index : Nat) :
    Except MslEncoderException (List Nat) :=
  match JsonMslArray.get list index with
  | none => .error ⟨"MslArray index is invalid."⟩
  | some value =>
    match value with
    | .bytes b => .ok b
    | .strObject s =>
      match base64Decode s with
      | some b => .ok b
      | none => .error ⟨"MslArray value is not Base64 data."⟩
    | .str s =>
      match base64Decode s with
      | some b => .ok b
      | none => .error ⟨"MslArray value is not Base64 data."⟩
    | _ => .error ⟨"MslArray value is not binary data."⟩

/-- C1: at a concrete pair of non-null message capabilities — both built by
the constructor from `(GZIP; en; JSON)` — `MessageCapabilities$intersection`
raises the ReferenceError for the undefined identifier
`computerIntersection` instead of producing the three per-list
intersections. -/
theorem intersection_referenceError_on_concrete_pair :
    MessageCapabilities.intersection
        (some (MessageCapabilities.init (some ["GZIP"]) (some ["en"])
          (some ["JSON"])))
        (some (MessageCapabilities.init (some ["GZIP"]) (some ["en"])
          (some ["JSON"]))) =
      .error (.referenceError "computerIntersection") := rfl

/-- C2: for every pair of non-null message capabilities the intersection
function raises the `computerIntersection` ReferenceError — the encoder-format
step does not reuse the `computeIntersection` helper, and no
`MessageCapabilities` value is ever returned. -/
theorem intersection_always_raises_on_nonnull (mc1 mc2 : MessageCapabilities) :
    MessageCapabilities.intersection (some mc1) (some mc2) =
      .error (.referenceError "computerIntersection") := rfl

/-- C3: intersecting with a null argument on either side (including both
sides null) returns null, without raising. -/
theorem intersection_null_yields_null (mc : Option MessageCapabilities) :
    MessageCapabilities.intersection mc none = .ok none ∧
    MessageCapabilities.intersection none mc = .ok none := by
  constructor
  · cases mc <;> rfl
  · rfl

/-- C4: `getScheme("constructor")` — a name that is not among the registered
scheme names — returns the truthy `Object.prototype.constructor` value
inherited by the `schemes` object literal, which is neither null nor a
registered scheme. -/
theorem getScheme_constructor_not_null :
    KeyExchangeScheme.getScheme "constructor" =
      .inheritedProperty "constructor" ∧
    "constructor" ∉ registeredSchemes.map KeyExchangeScheme.name ∧
    SchemeLookupResult.inheritedProperty "constructor" ≠ .jsNull :=
  ⟨rfl, by decide, by decide⟩

/-- C5: exactly the five named schemes are registered, each name exactly
once, and for each of the five names `getScheme` returns the scheme whose
`name` field equals that name. -/
theorem five_schemes_registered :
    schemes.map Prod.fst =
      ["ASYMMETRIC_WRAPPED", "DIFFIE_HELLMAN", "JWE_LADDER", "JWK_LADDER",
       "SYMMETRIC_WRAPPED"] ∧
    (schemes.map Prod.fst).Nodup ∧
    KeyExchangeScheme.getScheme "ASYMMETRIC_WRAPPED" =
      .scheme ⟨"ASYMMETRIC_WRAPPED"⟩ ∧
    KeyExchangeScheme.getScheme "DIFFIE_HELLMAN" =
      .scheme ⟨"DIFFIE_HELLMAN"⟩ ∧
    KeyExchangeScheme.getScheme "JWE_LADDER" = .scheme ⟨"JWE_LADDER"⟩ ∧
    KeyExchangeScheme.getScheme "JWK_LADDER" = .scheme ⟨"JWK_LADDER"⟩ ∧
    KeyExchangeScheme.getScheme "SYMMETRIC_WRAPPED" =
      .scheme ⟨"SYMMETRIC_WRAPPED"⟩ :=
  ⟨rfl, by decide, rfl, rfl, rfl, rfl, rfl⟩

/-- C6: on every input, wrap, unwrap and verify on an ECC crypto context
reach the error continuation with the operation-specific not-supported error
code and never deliver a result, and the three error codes are pairwise
distinct. -/
theorem ecc_unsupported_ops (ctx : EccCryptoContext)
    (key wrapped data signature : List Nat) :
    ctx.wrap key = .error ⟨.WRAP_NOT_SUPPORTED, "ECC does not wrap"⟩ ∧
    ctx.unwrap wrapped =
      .error ⟨.UNWRAP_NOT_SUPPORTED, "ECC does not unwrap"⟩ ∧
    ctx.verify data signature =
      .error ⟨.VERIFY_NOT_SUPPORTED, "ECC does not verify"⟩ ∧
    MslError.WRAP_NOT_SUPPORTED ≠ MslError.UNWRAP_NOT_SUPPORTED ∧
    MslError.WRAP_NOT_SUPPORTED ≠ MslError.VERIFY_NOT_SUPPORTED ∧
    MslError.UNWRAP_NOT_SUPPORTED ≠ MslError.VERIFY_NOT_SUPPORTED :=
  ⟨rfl, rfl, rfl, by decide, by decide, by decide⟩

/-- C7: ECC encrypt and decrypt deliver their input unchanged to the success
continuation, and decrypting an encrypted value recovers the original, on
every input. -/
theorem ecc_encrypt_decrypt_identity (ctx : EccCryptoContext)
    (data : List Nat) :
    ctx.encrypt data = .ok data ∧
    ctx.decrypt data = .ok data ∧
    (ctx.encrypt data).bind ctx.decrypt = .ok data :=
  ⟨rfl, rfl, rfl⟩

/-- C8: for an index holding a native binary value `getBytes` returns the
value as-is; for an index holding a string (primitive or wrapper object) it
returns the Base64 decoding of the string; for an index holding a value of
any other shape it fails with a `MslEncoderException`. -/
theorem getBytes_cases (list : List MslValue) (index : Nat) (v : MslValue)
    (h : JsonMslArray.get list index = some v) :
    (∀ b, v = .bytes b → JsonMslArray.getBytes list index = .ok b) ∧
    (∀ s b, (v = .str s ∨ v = .strObject s) → base64Decode s = some b →
      JsonMslArray.getBytes list index = .ok b) ∧
    ((∀ b, v ≠ .bytes b) → (∀ s, v ≠ .str s ∧ v ≠ .strObject s) →
      ∃ e, JsonMslArray.getBytes list index = .error e) := by
  refine ⟨?_, ?_, ?_⟩
  · rintro b rfl
    simp [JsonMslArray.getBytes, h]
  · rintro s b hv hb
    rcases hv with rfl | rfl <;> simp [JsonMslArray.getBytes, h, hb]
  · intro hbytes hstr
    cases v with
    | bytes b => exact absurd rfl (hbytes b)
    | str s => exact absurd rfl (hstr s).1
    | strObject s => exact absurd rfl (hstr s).2
    | num n =>
      exact ⟨⟨"MslArray value is not binary data."⟩,
        by simp [JsonMslArray.getBytes, h]⟩
    | boolean b =>
      exact ⟨⟨"MslArray value is not binary data."⟩,
        by simp [JsonMslArray.getBytes, h]⟩
    | jsNull =>
      exact ⟨⟨"MslArray value is not binary data."⟩,
        by simp [JsonMslArray.getBytes, h]⟩
    | object =>
      exact ⟨⟨"MslArray value is not binary data."⟩,
        by simp [JsonMslArray.getBytes, h]⟩
    | array =>
      exact ⟨⟨"MslArray value is not binary data."⟩,
        by simp [JsonMslArray.getBytes, h]⟩

/-- Witness for C8: a concrete array whose index 0 holds the Base64 string
"AQID", which decodes to the bytes 1, 2, 3. -/
theorem getBytes_cases_witness :
    JsonMslArray.get [MslValue.str "AQID"] 0 = some (MslValue.str "AQID") ∧
    base64Decode "AQID" = some [1, 2, 3] ∧
    JsonMslArray.getBytes [MslValue.str "AQID"] 0 = .ok [1, 2, 3] :=
  ⟨rfl, by decide,
    (getBytes_cases [MslValue.str "AQID"] 0 (MslValue.str "AQID") rfl).2.1
      "AQID" [1, 2, 3] (Or.inl rfl) (by decide)⟩

/-- C9: parse never rejects unknown entries: for every capabilities object,
the parsed compression-algorithm list holds exactly (as a permutation, since
the constructor sorts it) the recognized entries of the input list, an
algorithm appears in the result exactly when it appears in the input and is
recognized, unrecognized encoder formats are dropped by the format lookup,
and languages are kept as-is. -/
theorem parseMo_drops_unrecognized (recognizedFormats : List String)
    (mo : CapabilitiesMo) :
    (MessageCapabilities.parseMo recognizedFormats mo).compressionAlgorithms.Perm
      ((mo.compressionalgos.getD []).filter
        (fun algo => compressionAlgorithmNames.contains algo)) ∧
    (∀ algo,
      algo ∈ (MessageCapabilities.parseMo recognizedFormats mo).compressionAlgorithms ↔
        algo ∈ mo.compressionalgos.getD [] ∧
          compressionAlgorithmNames.contains algo) ∧
    (MessageCapabilities.parseMo recognizedFormats mo).encoderFormats =
      (mo.encoderformats.getD []).filter
        (fun format => recognizedFormats.contains format) ∧
    (MessageCapabilities.parseMo recognizedFormats mo).languages =
      mo.languages.getD [] := by
  refine ⟨List.perm_insertionSort _ _, ?_, rfl, rfl⟩
  intro algo
  constructor
  · intro hmem
    have := (List.perm_insertionSort (· ≤ ·)
      ((mo.compressionalgos.getD []).filter
        (fun a => compressionAlgorithmNames.contains a))).mem_iff.mp hmem
    have h2 := List.mem_filter.mp this
    exact ⟨h2.1, h2.2⟩
  · intro hmem
    exact (List.perm_insertionSort (· ≤ ·)
      ((mo.compressionalgos.getD []).filter
        (fun a => compressionAlgorithmNames.contains a))).mem_iff.mpr
      (List.mem_filter.mpr ⟨hmem.1, hmem.2⟩)

/-- C10: however a `MessageCapabilities` is built — by the constructor
directly or through parse — every list field is a (non-null) list, with a
null constructor argument replaced by the empty list, the
compression-algorithm list is sorted, and all three properties are installed
with `writable: false`. -/
theorem capabilities_invariant (ca la ea : Option (List String))
    (recognizedFormats : List String) (mo : CapabilitiesMo) :
    MessageCapabilities.init none none none =
      { compressionAlgorithms := [], languages := [], encoderFormats := [] } ∧
    (MessageCapabilities.init ca la ea).languages = la.getD [] ∧
    (MessageCapabilities.init ca la ea).encoderFormats = ea.getD [] ∧
    (MessageCapabilities.init ca la ea).compressionAlgorithms.Perm
      (ca.getD []) ∧
    List.Sorted (· ≤ ·)
      (MessageCapabilities.init ca la ea).compressionAlgorithms ∧
    List.Sorted (· ≤ ·)
      (MessageCapabilities.parseMo recognizedFormats mo).compressionAlgorithms ∧
    ∀ p ∈ MessageCapabilities.propertyDescriptors, p.2.writable = false := by
  refine ⟨rfl, rfl, rfl, List.perm_insertionSort _ _,
    List.sorted_insertionSort _ _, List.sorted_insertionSort _ _, by decide⟩

end Msl
